import Mathlib

/-!
Verification of the PredictBack repository's strategy-configuration layer and
backtesting loop, as a shallow embedding in Lean 4.

Embedded sources:
* `frontend/src/components/workflow-editor/utils/serialization.ts`
  (`serializeWorkflowToStrategy`, `deserializeStrategyToWorkflow` and helpers)
* `frontend/src/lib/stores/workflowStore.ts` (`validateWorkflowGraph`)
* `frontend/src/components/backtest/BacktestForm.tsx`
  (`calculateGridLevels`, the stop-loss price formula, `getAvailableIndicators`,
  `validateFormStrategy`, `buildBacktestRequest`, `handleRunBacktest`)
* `frontend/src/lib/api.ts` (request/strategy data model)
* `backtester_processor/docs/BACKTESTER.md` (the simulation loop, whose Python
  source is not part of the repository snapshot; modelled from the spec)

TypeScript `number` values that hold prices, spacings and thresholds are
modelled as `ℚ` (the mathematical value of the IEEE double), integers as `ℕ`,
optional / possibly-`undefined` fields as `Option`.
-/

/-! ## Data model (frontend/src/lib/api.ts) -/

/-- The `IndicatorType` union from api.ts: `"sma" | "ema" | "rsi" | "macd" | "bollinger"`. -/
inductive IndicatorType where
  | sma | ema | rsi | macd | bollinger
deriving DecidableEq, Repr

/-- The `IndicatorConfig` interface from api.ts.  All numeric parameters are optional in the
TypeScript interface; `num_std` may be fractional so it is a rational. -/
structure IndicatorConfig where
  type : IndicatorType
  name : String
  period : Option ℕ := none
  fast_period : Option ℕ := none
  slow_period : Option ℕ := none
  signal_period : Option ℕ := none
  num_std : Option ℚ := none
deriving DecidableEq, Repr

/-- The `ConditionOperator` union from api.ts. -/
inductive ConditionOperator where
  | gt | lt | ge | le | cross_above | cross_below
deriving DecidableEq, Repr

/-- The `RuleCondition` interface from api.ts: `value` and `compare_to_indicator` are both
optional fields. -/
structure RuleCondition where
  indicator : String
  operator : ConditionOperator
  value : Option ℚ := none
  compare_to_indicator : Option String := none
deriving DecidableEq, Repr

/-- The `TradingRule` interface from api.ts. -/
structure TradingRule where
  conditions : List RuleCondition
  description : Option String := none
deriving DecidableEq, Repr

/-- The `CustomStrategyParams` interface from api.ts (the `strategy_type: "custom"` tag is
carried by the `StrategyParams` constructor below). -/
structure CustomStrategyParams where
  indicators : List IndicatorConfig
  buy_rules : List TradingRule
  sell_rules : List TradingRule
  order_size : String
  initial_balance : String
deriving DecidableEq, Repr

/-! ## Workflow graph model (workflow-editor/types/workflow.ts)

Node payloads as produced by `createDefaultNodeData` / the node editors:
indicator nodes carry an `outputName` and their numeric parameters, compare
nodes an operator and an optional literal `compareToValue`, crossover nodes an
operator; gate, signal and price-data nodes carry no data relevant to
serialization. -/

inductive WorkflowNodeData where
  | priceData
  | smaData (period : ℕ) (outputName : String)
  | emaData (period : ℕ) (outputName : String)
  | rsiData (period : ℕ) (outputName : String)
  | macdData (fastPeriod slowPeriod signalPeriod : ℕ) (outputName : String)
  | bollingerData (period : ℕ) (numStd : ℚ) (outputName : String)
  | compareData (operator : ConditionOperator) (compareToValue : Option ℚ)
  | crossoverData (operator : ConditionOperator)
  | andGate
  | orGate
  | buySignal
  | sellSignal
deriving DecidableEq, Repr

/-- A React Flow node as used by the serializer: an id plus its data. -/
structure WorkflowNode where
  id : String
  data : WorkflowNodeData
deriving DecidableEq, Repr

/-- A React Flow edge: `source`/`target` node ids plus optional handles. -/
structure WorkflowEdge where
  source : String
  target : String
  sourceHandle : Option String := none
  targetHandle : Option String := none
deriving DecidableEq, Repr

/-- The `WorkflowGraph` shape (metadata omitted: the serializer never reads it). -/
structure WorkflowGraph where
  nodes : List WorkflowNode
  edges : List WorkflowEdge
deriving DecidableEq, Repr

/-- Is this node one of the five indicator node types?  Mirrors the repeated
`["sma", "ema", "rsi", "macd", "bollinger"].includes(n.data.nodeType)` filter. -/
def WorkflowNodeData.isIndicator : WorkflowNodeData → Bool
  | .smaData _ _ | .emaData _ _ | .rsiData _ _ => true
  | .macdData _ _ _ _ | .bollingerData _ _ _ => true
  | _ => false

/-- The `outputName` field where present (indicator nodes only), mirroring the
TypeScript `"outputName" in data` check. -/
def WorkflowNodeData.outputName? : WorkflowNodeData → Option String
  | .smaData _ n | .emaData _ n | .rsiData _ n => some n
  | .macdData _ _ _ n | .bollingerData _ _ n => some n
  | _ => none

/-! ## Serialization (workflow-editor/utils/serialization.ts) -/

/-- Embeds `getIndicatorName` from serialization.ts: `"price"` for a price-data node,
the node's `outputName` for indicator nodes, `null` otherwise. -/
def getIndicatorName : Option WorkflowNode → Option String
  | none => none
  | some n =>
    match n.data with
    | .priceData => some "price"
    | d => d.outputName?

/-- Embeds `buildCompareCondition` from serialization.ts.  Looks up the nodes feeding
the `left` and `right` handles; requires a name for the left input; sets
`compare_to_indicator` when the right input resolves to a name, else sets
`value` when a literal `compareToValue` is configured. -/
def buildCompareCondition (g : WorkflowGraph) (node : WorkflowNode)
    (operator : ConditionOperator) (compareToValue : Option ℚ) :
    List RuleCondition :=
  let inputEdges := g.edges.filter (fun e => e.target == node.id)
  let leftEdge := inputEdges.find? (fun e => e.targetHandle == some "left")
  let rightEdge := inputEdges.find? (fun e => e.targetHandle == some "right")
  let leftSource := leftEdge.bind (fun e => g.nodes.find? (fun n => n.id == e.source))
  let rightSource := rightEdge.bind (fun e => g.nodes.find? (fun n => n.id == e.source))
  match getIndicatorName leftSource with
  | none => []
  | some indicatorName =>
    match rightSource with
    | some rs =>
      match getIndicatorName (some rs) with
      | some rightName =>
        [{ indicator := indicatorName, operator := operator,
           compare_to_indicator := some rightName }]
      | none => [{ indicator := indicatorName, operator := operator }]
    | none =>
      match compareToValue with
      | some v => [{ indicator := indicatorName, operator := operator, value := some v }]
      | none => [{ indicator := indicatorName, operator := operator }]

/-- Embeds `buildCrossoverCondition` from serialization.ts: both inputs must resolve
to names; always compares indicator to indicator. -/
def buildCrossoverCondition (g : WorkflowGraph) (node : WorkflowNode)
    (operator : ConditionOperator) : List RuleCondition :=
  let inputEdges := g.edges.filter (fun e => e.target == node.id)
  let leftEdge := inputEdges.find? (fun e => e.targetHandle == some "left")
  let rightEdge := inputEdges.find? (fun e => e.targetHandle == some "right")
  let leftSource := leftEdge.bind (fun e => g.nodes.find? (fun n => n.id == e.source))
  let rightSource := rightEdge.bind (fun e => g.nodes.find? (fun n => n.id == e.source))
  match getIndicatorName leftSource, getIndicatorName rightSource with
  | some leftName, some rightName =>
    [{ indicator := leftName, operator := operator,
       compare_to_indicator := some rightName }]
  | _, _ => []

/-- Embeds `extractConditionsFromNode` from serialization.ts.  The TypeScript version
recurses through gate nodes guarded by a mutable `visited` set; here the set is
threaded explicitly and a fuel argument bounds the recursion depth.  Each
recursive step adds a previously unvisited node id to `visited`, so with
`fuel = g.nodes.length + 1` (as used by `traceRuleFromActionNode` below) the
fuel never runs out before the visited-guard stops the recursion. -/
def extractConditionsFromNode (g : WorkflowGraph) :
    ℕ → WorkflowNode → List String → List RuleCondition × List String
  | 0, _, visited => ([], visited)
  | fuel + 1, node, visited =>
    if node.id ∈ visited then ([], visited)
    else
      let visited := node.id :: visited
      match node.data with
      | .compareData op val => (buildCompareCondition g node op val, visited)
      | .crossoverData op => (buildCrossoverCondition g node op, visited)
      | .andGate =>
        let inputEdges := g.edges.filter (fun e => e.target == node.id)
        inputEdges.foldl
          (fun acc e =>
            match g.nodes.find? (fun n => n.id == e.source) with
            | some src =>
              let r := extractConditionsFromNode g fuel src acc.2
              (acc.1 ++ r.1, r.2)
            | none => acc)
          (([] : List RuleCondition), visited)
      | .orGate =>
        let inputEdges := g.edges.filter (fun e => e.target == node.id)
        inputEdges.foldl
          (fun acc e =>
            match g.nodes.find? (fun n => n.id == e.source) with
            | some src =>
              let r := extractConditionsFromNode g fuel src acc.2
              (acc.1 ++ r.1, r.2)
            | none => acc)
          (([] : List RuleCondition), visited)
      | _ => ([], visited)

/-- Embeds `traceRuleFromActionNode` from serialization.ts: gathers the conditions of
every node feeding the action node (a fresh visited set per incoming edge) and
returns a rule only when at least one condition was found. -/
def traceRuleFromActionNode (actionNode : WorkflowNode) (g : WorkflowGraph) :
    Option TradingRule :=
  let incomingEdges := g.edges.filter (fun e => e.target == actionNode.id)
  let conditions := incomingEdges.foldl
    (fun acc e =>
      match g.nodes.find? (fun n => n.id == e.source) with
      | some sourceNode =>
        acc ++ (extractConditionsFromNode g (g.nodes.length + 1) sourceNode []).1
      | none => acc)
    ([] : List RuleCondition)
  if conditions = [] then none else some { conditions := conditions }

/-- Embeds `nodeToIndicatorConfig` from serialization.ts (indicator nodes only). -/
def nodeToIndicatorConfig (node : WorkflowNode) : Option IndicatorConfig :=
  match node.data with
  | .smaData period name => some { type := .sma, name := name, period := some period }
  | .emaData period name => some { type := .ema, name := name, period := some period }
  | .rsiData period name => some { type := .rsi, name := name, period := some period }
  | .macdData fast slow signal name =>
    some { type := .macd, name := name, fast_period := some fast,
           slow_period := some slow, signal_period := some signal }
  | .bollingerData period numStd name =>
    some { type := .bollinger, name := name, period := some period,
           num_std := some numStd }
  | _ => none

/-- Embeds `serializeWorkflowToStrategy` from serialization.ts: collect indicator
configs from indicator nodes, then build at most one `TradingRule` per buy /
sell signal node, keeping only rules with at least one condition. -/
def serializeWorkflowToStrategy (g : WorkflowGraph)
    (orderSize initialBalance : String) : CustomStrategyParams :=
  let indicatorNodes := g.nodes.filter (fun n => n.data.isIndicator)
  let indicators := indicatorNodes.filterMap nodeToIndicatorConfig
  let buySignalNodes := g.nodes.filter (fun n => n.data == .buySignal)
  let sellSignalNodes := g.nodes.filter (fun n => n.data == .sellSignal)
  let buyRules := buySignalNodes.filterMap (fun node =>
    match traceRuleFromActionNode node g with
    | some rule => if rule.conditions.length > 0 then some rule else none
    | none => none)
  let sellRules := sellSignalNodes.filterMap (fun node =>
    match traceRuleFromActionNode node g with
    | some rule => if rule.conditions.length > 0 then some rule else none
    | none => none)
  { indicators := indicators, buy_rules := buyRules, sell_rules := sellRules,
    order_size := orderSize, initial_balance := initialBalance }

/-! Quick sanity examples (not claim theorems). -/

private def exGraph1 : WorkflowGraph :=
  { nodes := [⟨"p", .priceData⟩,
              ⟨"s", .smaData 20 "sma_20"⟩,
              ⟨"c", .compareData .gt (some (1/2 : ℚ))⟩,
              ⟨"b", .buySignal⟩],
    edges := [⟨"s", "c", none, some "left"⟩, ⟨"c", "b", none, none⟩] }

example :
    (serializeWorkflowToStrategy exGraph1 "100" "10000").buy_rules =
      [{ conditions := [{ indicator := "sma_20", operator := .gt,
                          value := some (1/2) }] }] := by
  rfl

example :
    (serializeWorkflowToStrategy exGraph1 "100" "10000").indicators =
      [{ type := .sma, name := "sma_20", period := some 20 }] := by
  rfl

/-! ## Deserialization (workflow-editor/utils/serialization.ts) -/

/-- TypeScript truthiness default `a || d` for an optional number: `undefined`
and `0` both fall back to the default. -/
def orDefaultNat (a : Option ℕ) (d : ℕ) : ℕ :=
  match a with
  | none => d
  | some x => if x = 0 then d else x

/-- TypeScript truthiness default `a || d` for an optional rational. -/
def orDefaultRat (a : Option ℚ) (d : ℚ) : ℚ :=
  match a with
  | none => d
  | some x => if x = 0 then d else x

/-- Embeds `createIndicatorNode` from serialization.ts: builds one indicator
node per config, substituting the documented defaults (`config.period || 20`,
RSI 14, MACD 12/26/9, `num_std || 2`) for absent-or-zero parameters.  Node ids
follow the `node_${id}` scheme (ids and positions do not affect
re-serialization of an edgeless graph). -/
def createIndicatorNode (config : IndicatorConfig) (id : ℕ) : WorkflowNode :=
  { id := "node_" ++ toString id,
    data :=
      match config.type with
      | .sma => .smaData (orDefaultNat config.period 20) config.name
      | .ema => .emaData (orDefaultNat config.period 20) config.name
      | .rsi => .rsiData (orDefaultNat config.period 14) config.name
      | .macd => .macdData (orDefaultNat config.fast_period 12)
          (orDefaultNat config.slow_period 26)
          (orDefaultNat config.signal_period 9) config.name
      | .bollinger => .bollingerData (orDefaultNat config.period 20)
          (orDefaultRat config.num_std 2) config.name }

/-- Embeds `deserializeStrategyToWorkflow` from serialization.ts: a price-data
node (`node_0`) followed by one node per indicator config, and no edges (rule
deserialization is not implemented in the source: "we just create the
indicators and let users rebuild the connections"). -/
def deserializeStrategyToWorkflow (config : CustomStrategyParams) :
    WorkflowGraph :=
  { nodes := ⟨"node_0", .priceData⟩ ::
      (config.indicators.enumFrom 1).map (fun p => createIndicatorNode p.2 p.1),
    edges := [] }

/-! ## Workflow validation (frontend/src/lib/stores/workflowStore.ts) -/

/-- A `ValidationError` from workflow.ts: an optional offending node id, a
severity tag and a message. -/
structure ValidationError where
  nodeId : Option String := none
  errType : String := "error"
  message : String
deriving DecidableEq, Repr

/-- The duplicate-name scan of `validateWorkflowGraph`: walk the indicator
names in order, reporting each repeated non-empty name (TypeScript skips falsy
names, i.e. the empty string). -/
def duplicateNameErrors : List String → List String → List ValidationError
  | [], _ => []
  | name :: rest, seen =>
    if name ≠ "" ∧ name ∈ seen then
      { message := "Duplicate indicator name: \"" ++ name ++ "\"" } ::
        duplicateNameErrors rest (if name ≠ "" then name :: seen else seen)
    else
      duplicateNameErrors rest (if name ≠ "" then name :: seen else seen)

/-- Embeds `validateWorkflowGraph` from workflowStore.ts: requires at least one
indicator node and at least one buy/sell signal; every signal and every
condition node must have an incoming edge; indicator output names must be
unique. -/
def validateWorkflowGraph (nodes : List WorkflowNode)
    (edges : List WorkflowEdge) : List ValidationError :=
  let indicatorNodes := nodes.filter (fun n => n.data.isIndicator)
  let noIndicator : List ValidationError :=
    if indicatorNodes.length = 0 then
      [{ message := "Strategy must have at least one indicator" }] else []
  let hasSignals := nodes.any
    (fun n => n.data == .buySignal || n.data == .sellSignal)
  let noSignal : List ValidationError :=
    if !hasSignals then
      [{ message := "Strategy must have at least one Buy or Sell signal" }]
    else []
  let signalNodes := nodes.filter
    (fun n => n.data == .buySignal || n.data == .sellSignal)
  let unconnectedSignals := (signalNodes.filter
    (fun s => !(edges.any (fun e => e.target == s.id)))).map
    (fun s => { nodeId := some s.id,
                message := "signal is not connected to any conditions" })
  let names := indicatorNodes.map (fun n => (n.data.outputName?).getD "")
  let dupErrors := duplicateNameErrors names []
  let conditionNodes := nodes.filter (fun n =>
    match n.data with
    | .compareData _ _ | .crossoverData _ => true
    | _ => false)
  let unconnectedConds := (conditionNodes.filter
    (fun c => (edges.filter (fun e => e.target == c.id)).length < 1)).map
    (fun c => { nodeId := some c.id,
                message := "condition needs at least one input" })
  noIndicator ++ noSignal ++ unconnectedSignals ++ dupErrors ++ unconnectedConds

/-- Embeds the visual-editor `handleRunBacktest` from `WorkflowEditor.tsx`:
re-validate, return without requesting anything unless the graph is valid,
otherwise serialize and hand the config to the backtest runner. -/
def visualEditorRunBacktest (nodes : List WorkflowNode)
    (edges : List WorkflowEdge) (orderSize initialBalance : String) :
    Option CustomStrategyParams :=
  if validateWorkflowGraph nodes edges = [] then
    some (serializeWorkflowToStrategy ⟨nodes, edges⟩ orderSize initialBalance)
  else
    none

/-! ## The backtest form (frontend/src/components/backtest/BacktestForm.tsx) -/

/-- The `GridFormData` shape (and, spread under a `strategy_type: "grid"` tag,
the `GridStrategyParams` payload): decimal fields are user-entered strings. -/
structure GridFormData where
  grid_size : ℕ
  grid_spacing : String
  order_size : String
  initial_balance : String
  protection_threshold : Option ℕ
deriving DecidableEq, Repr

/-- The `MomentumFormData` shape (also the `MomentumStrategyParams` payload). -/
structure MomentumFormData where
  lookback_window : ℕ
  momentum_threshold : String
  order_size : String
  initial_balance : String
deriving DecidableEq, Repr

/-- The `CustomFormData` shape from BacktestForm.tsx. -/
structure CustomFormData where
  indicators : List IndicatorConfig
  buy_rules : List TradingRule
  sell_rules : List TradingRule
  order_size : String
  initial_balance : String
deriving DecidableEq, Repr

/-- The `StrategyParams` union from api.ts (tag carried by the constructor). -/
inductive StrategyParams where
  | grid (p : GridFormData)
  | momentum (p : MomentumFormData)
  | custom (p : CustomStrategyParams)
deriving DecidableEq, Repr

/-- The `BacktestRequest` interface from api.ts. -/
structure BacktestRequest where
  clob_token_id : Option String := none
  topic : Option String := none
  amount_of_markets : Option ℕ := none
  strategy : StrategyParams
  fee_rate : String
deriving DecidableEq, Repr

/-- The two `BacktestFormProps.mode` values. -/
inductive FormMode where
  | continuous | eventBased
deriving DecidableEq, Repr

/-- Embeds `buildBacktestRequest` from BacktestForm.tsx: continuous mode sends
`{topic, amount_of_markets, strategy, fee_rate}`, event-based mode sends
`{clob_token_id, strategy, fee_rate}`. -/
def buildBacktestRequest (mode : FormMode) (topic marketId : String)
    (amountOfMarkets : ℕ) (feeRate : String) (strategyParams : StrategyParams) :
    BacktestRequest :=
  match mode with
  | .continuous =>
    { topic := some topic, amount_of_markets := some amountOfMarkets,
      strategy := strategyParams, fee_rate := feeRate }
  | .eventBased =>
    { clob_token_id := some marketId, strategy := strategyParams,
      fee_rate := feeRate }

/-- The strategy-params construction inside the form-path `handleRunBacktest`
(BacktestForm.tsx lines 386-407): pick the active form's data verbatim. -/
def mkStrategyParams (strategy : String) (gridForm : GridFormData)
    (momentumForm : MomentumFormData) (customForm : CustomFormData) :
    StrategyParams :=
  if strategy = "grid" then .grid gridForm
  else if strategy = "momentum" then .momentum momentumForm
  else .custom ⟨customForm.indicators, customForm.buy_rules,
    customForm.sell_rules, customForm.order_size, customForm.initial_balance⟩

/-- Embeds the form-path `handleRunBacktest` from BacktestForm.tsx: it builds
the strategy params and the request and submits it directly — no validation of
any kind runs on this path (`validateFormStrategy` is only called from
`handleSaveStrategy`). -/
def handleRunBacktestForm (mode : FormMode) (topic marketId : String)
    (amountOfMarkets : ℕ) (feeRate : String) (strategy : String)
    (gridForm : GridFormData) (momentumForm : MomentumFormData)
    (customForm : CustomFormData) : BacktestRequest :=
  buildBacktestRequest mode topic marketId amountOfMarkets feeRate
    (mkStrategyParams strategy gridForm momentumForm customForm)

/-- Embeds `validateFormStrategy` from BacktestForm.tsx: only two checks — at
least one indicator, and at least one buy or sell rule. -/
def validateFormStrategy (customForm : CustomFormData) : List String :=
  (if customForm.indicators.length = 0 then
    ["Strategy must have at least one indicator"] else []) ++
  (if customForm.buy_rules.length = 0 ∧ customForm.sell_rules.length = 0 then
    ["Strategy must have at least one buy or sell rule"] else [])

/-- The per-indicator "special indicator values" pushed by the forEach loop of
`getAvailableIndicators`: `{name}_signal` and `{name}_histogram` for MACD,
`{name}_upper`/`_lower`/`_middle` for Bollinger, nothing otherwise. -/
def indicatorExtraNames (ind : IndicatorConfig) : List String :=
  match ind.type with
  | .macd => [ind.name ++ "_signal", ind.name ++ "_histogram"]
  | .bollinger =>
    [ind.name ++ "_upper", ind.name ++ "_lower", ind.name ++ "_middle"]
  | _ => []

/-- Embeds `getAvailableIndicators` from BacktestForm.tsx: `"price"`, every
configured indicator name, then the per-indicator extras. -/
def getAvailableIndicators (indicators : List IndicatorConfig) : List String :=
  ("price" :: indicators.map (fun i => i.name)) ++
    indicators.flatMap indicatorExtraNames

/-! ## Grid visualization formulas (BacktestForm.tsx) -/

/-- The `Math.max(0, Math.min(1, level))` clamp from `calculateGridLevels`. -/
def clamp01 (x : ℚ) : ℚ := max 0 (min 1 x)

/-- The `toFixed(6)` rounding used to deduplicate clamped levels, modelled
exactly over the rationals: round to six decimal places. -/
def roundTo6 (q : ℚ) : ℚ := (round (q * 1000000) : ℚ) / 1000000

/-- The `[...new Set(levels)]` step: keep the first occurrence of each value. -/
def dedupKeepFirst (seen : List ℚ) : List ℚ → List ℚ
  | [] => []
  | x :: xs =>
    if x ∈ seen then dedupKeepFirst seen xs
    else x :: dedupKeepFirst (x :: seen) xs

/-- The `.sort((a, b) => b - a)` step: insertion sort, descending. -/
def insertDesc (x : ℚ) : List ℚ → List ℚ
  | [] => [x]
  | y :: ys => if y ≤ x then x :: y :: ys else y :: insertDesc x ys

/-- Sorts a list of rationals in descending order by repeated insertion. -/
def sortDesc (l : List ℚ) : List ℚ := l.foldr insertDesc []

/-- Embeds `calculateGridLevels` from BacktestForm.tsx: one level
`refPrice * (1 + spacing * k)` for each integer `k` in `[-size, size]`, each
clamped to `[0, 1]`, rounded to six decimals, deduplicated and sorted high to
low.  Inputs are the already-parsed reference price, spacing and grid size. -/
def calculateGridLevels (refPrice spacing : ℚ) (size : ℕ) : List ℚ :=
  let levels := (List.range (2 * size + 1)).map
    (fun j => clamp01 (refPrice * (1 + spacing * ((j : ℤ) - (size : ℤ)))))
  sortDesc (dedupKeepFirst [] (levels.map roundTo6))

/-- Embeds the STOP-LOSS indicator price from BacktestForm.tsx (line 1061):
`Math.max(0, ref * (1 - spacing * (grid_size + protection_threshold)))`. -/
def stopLossPrice (refPrice spacing : ℚ) (gridSize protectionThreshold : ℕ) :
    ℚ :=
  max 0 (refPrice * (1 - spacing * ((gridSize : ℚ) + (protectionThreshold : ℚ))))

/-! ## The simulation loop (backtester_processor/docs/BACKTESTER.md)

The Python `backtester.py` is not part of the repository snapshot; only its
documentation is.  The loop below is modelled from the spec and from the code
excerpt in BACKTESTER.md: sort trades by timestamp ascending, then for each
index `i` pass `trades[0 : i + 1]` to the strategy, execute the returned
orders at the current trade price with the configured fee, and record the
call. -/

/-- Modelled from the spec: an input trade `{timestamp, price}` (market id
omitted — the loop never reads it). -/
structure MarketTrade where
  timestamp : ℕ
  price : ℚ
deriving DecidableEq, Repr

/-- Modelled from the spec: an order side. -/
inductive OrderSide where
  | buy | sell
deriving DecidableEq, Repr

/-- Modelled from the spec: an order `{side, price, size, order_type}`; both
limit and market orders execute at the current trade's reference price. -/
structure Order where
  side : OrderSide
  price : ℚ
  size : ℚ
  isMarket : Bool
deriving DecidableEq, Repr

/-- Modelled from the spec: cash effect of one fill at the current price with
proportional fee — buys cost `size*price*(1+fee)`, sells pay
`size*price*(1-fee)`. -/
def execOrder (feeRate currentPrice : ℚ) (cash : ℚ) (o : Order) : ℚ :=
  match o.side with
  | .buy => cash - o.size * currentPrice * (1 + feeRate)
  | .sell => cash + o.size * currentPrice * (1 - feeRate)

/-- Modelled from the spec: a strategy is an arbitrary function from the
current trade, the visible history and the strategy's own state to a new state
plus the orders to execute this tick. -/
def StrategyFn (σ : Type) : Type :=
  MarketTrade → List MarketTrade → σ → σ × List Order

/-- The observable outcome of a run: final strategy state, final cash, and the
trace of `(current_trade, history)` argument pairs passed to `on_trade`. -/
structure RunTrace (σ : Type) where
  state : σ
  cash : ℚ
  calls : List (MarketTrade × List MarketTrade)

/-- Modelled from the spec: the causal loop of `Backtester.run` over an
already-sorted trade list.  `hist` accumulates `trades[0 : i]`; each step
appends the current trade (`historical_data = df.iloc[:i + 1]`), calls the
strategy, executes its orders at the current price and logs the call. -/
def runLoop {σ : Type} (strat : StrategyFn σ) (feeRate : ℚ) :
    List MarketTrade → List MarketTrade → RunTrace σ → RunTrace σ
  | [], _, tr => tr
  | t :: rest, hist, tr =>
    let hist' := hist ++ [t]
    let stepResult := strat t hist' tr.state
    let cash' := stepResult.2.foldl (execOrder feeRate t.price) tr.cash
    runLoop strat feeRate rest hist'
      { state := stepResult.1, cash := cash',
        calls := tr.calls ++ [(t, hist')] }

/-- Modelled from the spec: sort trades by timestamp ascending (oldest first),
as `Backtester.run` does before iterating. -/
def sortTrades (trades : List MarketTrade) : List MarketTrade :=
  trades.insertionSort (fun a b => a.timestamp ≤ b.timestamp)

/-- Modelled from the spec: `Backtester.run` — sort, then drive the causal
loop from an empty history and the strategy's initial state and balance. -/
def backtesterRun {σ : Type} (strat : StrategyFn σ) (feeRate : ℚ)
    (initialState : σ) (initialBalance : ℚ) (trades : List MarketTrade) :
    RunTrace σ :=
  runLoop strat feeRate (sortTrades trades) []
    { state := initialState, cash := initialBalance, calls := [] }

/-- The expected call trace: pairs each trade with the history ending at it. -/
def callsSpec (hist : List MarketTrade) :
    List MarketTrade → List (MarketTrade × List MarketTrade)
  | [] => []
  | t :: rest => (t, hist ++ [t]) :: callsSpec (hist ++ [t]) rest

/-! ## Helper lemmas -/

theorem mem_insertDesc {x y : ℚ} {l : List ℚ} :
    x ∈ insertDesc y l ↔ x = y ∨ x ∈ l := by
  induction l with
  | nil => simp [insertDesc]
  | cons a as ih =>
    by_cases h : a ≤ y
    · simp [insertDesc, h]
    · simp [insertDesc, h, ih]
      tauto

theorem mem_sortDesc {x : ℚ} {l : List ℚ} : x ∈ sortDesc l ↔ x ∈ l := by
  induction l with
  | nil => simp [sortDesc]
  | cons a as ih =>
    simp only [sortDesc, List.foldr_cons, List.mem_cons]
    rw [mem_insertDesc]
    simp only [sortDesc] at ih
    rw [ih]

theorem mem_dedupKeepFirst {x : ℚ} :
    ∀ {seen l : List ℚ}, x ∈ dedupKeepFirst seen l → x ∈ l := by
  intro seen l
  induction l generalizing seen with
  | nil => simp [dedupKeepFirst]
  | cons a as ih =>
    intro h
    by_cases ha : a ∈ seen
    · simp only [dedupKeepFirst, if_pos ha] at h
      exact List.mem_cons_of_mem _ (ih h)
    · simp only [dedupKeepFirst, if_neg ha, List.mem_cons] at h
      rcases h with rfl | h
      · exact List.mem_cons_self _ _
      · exact List.mem_cons_of_mem _ (ih h)

theorem clamp01_bounds (x : ℚ) : 0 ≤ clamp01 x ∧ clamp01 x ≤ 1 := by
  constructor
  · exact le_max_left 0 _
  · exact max_le (by norm_num) (min_le_left 1 x)

theorem roundMonotone {x y : ℚ} (h : x ≤ y) : round x ≤ round y := by
  rw [round_eq, round_eq]
  exact Int.floor_le_floor (by linarith)

theorem roundTo6_bounds {q : ℚ} (h0 : 0 ≤ q) (h1 : q ≤ 1) :
    0 ≤ roundTo6 q ∧ roundTo6 q ≤ 1 := by
  have hlo : (0 : ℤ) ≤ round (q * 1000000) := by
    have := roundMonotone (mul_nonneg h0 (by norm_num : (0:ℚ) ≤ 1000000))
    simpa [round_zero] using this
  have hhi : round (q * 1000000) ≤ 1000000 := by
    have := roundMonotone (x := q * 1000000) (y := (1000000 : ℚ))
      (by nlinarith)
    simpa using this
  constructor
  · have hc : (0 : ℚ) ≤ (round (q * 1000000) : ℚ) := by exact_mod_cast hlo
    rw [roundTo6]
    exact div_nonneg hc (by norm_num)
  · rw [roundTo6, div_le_one (by norm_num)]
    exact_mod_cast hhi

/-! ## Claim theorems -/

/-- C2: `calculateGridLevels` builds one level `base * (1 + spacing * k)` for
every integer `k` in `[-grid_size, grid_size]`, clamps each level to `[0, 1]`,
and with `grid_size = 5`, `grid_spacing = 0.02` and reference price `0.50`
returns exactly 11 levels whose largest is `0.55` and smallest is `0.45`. -/
theorem grid_ladder_determinism :
    (∀ refPrice spacing size, ∀ x ∈ calculateGridLevels refPrice spacing size,
      0 ≤ x ∧ x ≤ 1) ∧
    calculateGridLevels (1/2) (1/50) 5 =
      [11/20, 27/50, 53/100, 13/25, 51/100, 1/2, 49/100, 12/25, 47/100,
       23/50, 9/20] ∧
    (calculateGridLevels (1/2) (1/50) 5).length = 11 ∧
    (11/20 : ℚ) ∈ calculateGridLevels (1/2) (1/50) 5 ∧
    (9/20 : ℚ) ∈ calculateGridLevels (1/2) (1/50) 5 ∧
    (∀ x ∈ calculateGridLevels (1/2) (1/50) 5, 9/20 ≤ x ∧ x ≤ 11/20) := by
  have hconc : calculateGridLevels (1/2) (1/50) 5 =
      [11/20, 27/50, 53/100, 13/25, 51/100, 1/2, 49/100, 12/25, 47/100,
       23/50, 9/20] := by
    norm_num [calculateGridLevels, clamp01, roundTo6, round_eq, dedupKeepFirst,
      insertDesc, sortDesc, List.range_succ]
  refine ⟨?_, hconc, by rw [hconc]; rfl, by rw [hconc]; norm_num,
    by rw [hconc]; norm_num, ?_⟩
  · intro refPrice spacing size x hx
    simp only [calculateGridLevels] at hx
    rw [mem_sortDesc] at hx
    have hx' := mem_dedupKeepFirst hx
    simp only [List.mem_map] at hx'
    obtain ⟨y, ⟨j, _, rfl⟩, rfl⟩ := hx'
    exact roundTo6_bounds (clamp01_bounds _).1 (clamp01_bounds _).2
  · intro x hx
    rw [hconc] at hx
    simp only [List.mem_cons, List.not_mem_nil, or_false] at hx
    rcases hx with rfl | rfl | rfl | rfl | rfl | rfl | rfl | rfl | rfl | rfl | rfl <;>
      norm_num

/-- Witness for `grid_ladder_determinism`: instantiate the bound conjuncts at
the concrete top level `0.55` of the concrete ladder. -/
theorem grid_ladder_determinism_witness :
    0 ≤ (11/20 : ℚ) ∧ (11/20 : ℚ) ≤ 1 ∧
    (9/20 : ℚ) ≤ 11/20 ∧ (11/20 : ℚ) ≤ 11/20 := by
  have h := grid_ladder_determinism
  have hmem : (11/20 : ℚ) ∈ calculateGridLevels (1/2) (1/50) 5 := h.2.2.2.1
  have h1 := h.1 (1/2) (1/50) 5 (11/20) hmem
  have h2 := h.2.2.2.2.2 (11/20) hmem
  exact ⟨h1.1, h1.2, h2.1, h2.2⟩

/-- C6: the displayed force-liquidation (stop-loss) price equals
`base * (1 - grid_spacing * (grid_size + protection_threshold))` clamped below
at `0`; with grid size 5, spacing `0.02`, reference price `0.50` and
protection threshold 1 it is `0.50 * (1 - 0.02 * 6) = 0.44`. -/
theorem protection_trigger_level :
    stopLossPrice (1/2) (1/50) 5 1 = 11/25 ∧
    (∀ refPrice spacing gs pt, stopLossPrice refPrice spacing gs pt =
      max 0 (refPrice * (1 - spacing * ((gs : ℚ) + (pt : ℚ))))) ∧
    (∀ refPrice spacing gs pt, 0 ≤ stopLossPrice refPrice spacing gs pt) := by
  refine ⟨?_, fun _ _ _ _ => rfl, fun _ _ _ _ => le_max_left 0 _⟩
  norm_num [stopLossPrice]

/-- C5: `validateFormStrategy` returns a non-empty error list exactly when the
custom form has zero indicators or has both zero buy rules and zero sell
rules; `validateWorkflowGraph` reports an error whenever the graph has no
indicator node, and whenever it has no buy/sell signal node. -/
theorem empty_configuration_errors :
    (∀ cf : CustomFormData, validateFormStrategy cf ≠ [] ↔
      (cf.indicators = [] ∨ (cf.buy_rules = [] ∧ cf.sell_rules = []))) ∧
    (∀ nodes edges, nodes.filter (fun n => n.data.isIndicator) = [] →
      ({ message := "Strategy must have at least one indicator" } :
        ValidationError) ∈ validateWorkflowGraph nodes edges) ∧
    (∀ nodes edges,
      (∀ n ∈ nodes, n.data ≠ .buySignal ∧ n.data ≠ .sellSignal) →
      ({ message := "Strategy must have at least one Buy or Sell signal" } :
        ValidationError) ∈ validateWorkflowGraph nodes edges) := by
  refine ⟨?_, ?_, ?_⟩
  · intro cf
    by_cases h1 : cf.indicators = [] <;>
      by_cases hb : cf.buy_rules = [] <;>
      by_cases hs : cf.sell_rules = [] <;>
      simp [validateFormStrategy, List.length_eq_zero, h1, hb, hs]
  · intro nodes edges h
    have hlen : (nodes.filter (fun n => n.data.isIndicator)).length = 0 := by
      rw [h]; rfl
    simp [validateWorkflowGraph, hlen]
  · intro nodes edges h
    have hany : nodes.any
        (fun n => n.data == .buySignal || n.data == .sellSignal) = false := by
      simp only [List.any_eq_false, Bool.or_eq_true, beq_iff_eq]
      intro n hn
      push_neg
      exact (h n hn)
    simp [validateWorkflowGraph, hany]

/-- Witness for `empty_configuration_errors`: the empty form and the empty
graph produce both errors. -/
theorem empty_configuration_errors_witness :
    (validateFormStrategy ⟨[], [], [], "100", "10000"⟩ ≠ [] ↔
      (([] : List IndicatorConfig) = [] ∨
        (([] : List TradingRule) = [] ∧ ([] : List TradingRule) = []))) ∧
    ({ message := "Strategy must have at least one indicator" } :
      ValidationError) ∈ validateWorkflowGraph [] [] ∧
    ({ message := "Strategy must have at least one Buy or Sell signal" } :
      ValidationError) ∈ validateWorkflowGraph [] [] := by
  refine ⟨empty_configuration_errors.1 ⟨[], [], [], "100", "10000"⟩,
    empty_configuration_errors.2.1 [] [] rfl,
    empty_configuration_errors.2.2 [] [] (by intro n hn; cases hn)⟩

/-- C7: the available indicator series names are exactly the reserved name
`"price"`, every configured indicator's name, `{name}_signal` and
`{name}_histogram` for each MACD indicator, and `{name}_upper`, `{name}_lower`,
`{name}_middle` for each Bollinger indicator. -/
theorem available_indicator_names :
    ∀ (inds : List IndicatorConfig) (s : String),
      s ∈ getAvailableIndicators inds ↔
        (s = "price" ∨ (∃ i ∈ inds, s = i.name) ∨
          (∃ i ∈ inds, i.type = .macd ∧
            (s = i.name ++ "_signal" ∨ s = i.name ++ "_histogram")) ∨
          (∃ i ∈ inds, i.type = .bollinger ∧
            (s = i.name ++ "_upper" ∨ s = i.name ++ "_lower" ∨
              s = i.name ++ "_middle"))) := by
  intro inds s
  have hextra : ∀ i : IndicatorConfig, s ∈ indicatorExtraNames i ↔
      ((i.type = .macd ∧
        (s = i.name ++ "_signal" ∨ s = i.name ++ "_histogram")) ∨
       (i.type = .bollinger ∧
        (s = i.name ++ "_upper" ∨ s = i.name ++ "_lower" ∨
          s = i.name ++ "_middle"))) := by
    intro i
    rcases hty : i.type <;>
      simp [indicatorExtraNames, hty]
  simp only [getAvailableIndicators, List.mem_append, List.mem_cons,
    List.mem_map, List.mem_flatMap]
  constructor
  · rintro ((rfl | ⟨i, hi, rfl⟩) | ⟨i, hi, hmem⟩)
    · exact Or.inl rfl
    · exact Or.inr (Or.inl ⟨i, hi, rfl⟩)
    · rcases (hextra i).1 hmem with h | h
      · exact Or.inr (Or.inr (Or.inl ⟨i, hi, h⟩))
      · exact Or.inr (Or.inr (Or.inr ⟨i, hi, h⟩))
  · rintro (rfl | ⟨i, hi, rfl⟩ | ⟨i, hi, h⟩ | ⟨i, hi, h⟩)
    · exact Or.inl (Or.inl rfl)
    · exact Or.inl (Or.inr ⟨i, hi, rfl⟩)
    · exact Or.inr ⟨i, hi, (hextra i).2 (Or.inl h)⟩
    · exact Or.inr ⟨i, hi, (hextra i).2 (Or.inr h)⟩

/-- C8: the backtest request carries the user-entered decimal strings
unmodified (fee rate plus each strategy form's string fields, via the form
data passed through verbatim), integers as integers, in the shape
`{topic, amount_of_markets, strategy, fee_rate}` for continuous mode and
`{clob_token_id, strategy, fee_rate}` for event-based mode. -/
theorem request_decimal_strings_preserved :
    ∀ (topic marketId fee : String) (n : ℕ) (gf : GridFormData)
      (mf : MomentumFormData) (cf : CustomFormData),
      handleRunBacktestForm .continuous topic marketId n fee "grid" gf mf cf =
        { topic := some topic, amount_of_markets := some n,
          strategy := .grid gf, fee_rate := fee } ∧
      handleRunBacktestForm .eventBased topic marketId n fee "grid" gf mf cf =
        { clob_token_id := some marketId, strategy := .grid gf,
          fee_rate := fee } ∧
      handleRunBacktestForm .continuous topic marketId n fee "momentum"
          gf mf cf =
        { topic := some topic, amount_of_markets := some n,
          strategy := .momentum mf, fee_rate := fee } ∧
      handleRunBacktestForm .eventBased topic marketId n fee "momentum"
          gf mf cf =
        { clob_token_id := some marketId, strategy := .momentum mf,
          fee_rate := fee } ∧
      handleRunBacktestForm .continuous topic marketId n fee "custom"
          gf mf cf =
        { topic := some topic, amount_of_markets := some n,
          strategy := .custom ⟨cf.indicators, cf.buy_rules, cf.sell_rules,
            cf.order_size, cf.initial_balance⟩, fee_rate := fee } ∧
      handleRunBacktestForm .eventBased topic marketId n fee "custom"
          gf mf cf =
        { clob_token_id := some marketId,
          strategy := .custom ⟨cf.indicators, cf.buy_rules, cf.sell_rules,
            cf.order_size, cf.initial_balance⟩, fee_rate := fee } := by
  intro topic marketId fee n gf mf cf
  refine ⟨rfl, rfl, ?_, ?_, ?_, ?_⟩ <;>
    simp [handleRunBacktestForm, mkStrategyParams, buildBacktestRequest]

/-- A graph with one or-gate collecting two compare conditions into one buy
signal: used to exhibit OR-flattening concretely. -/
def orGateGraph : WorkflowGraph :=
  { nodes := [⟨"p", .priceData⟩,
              ⟨"s1", .smaData 10 "fast_sma"⟩,
              ⟨"s2", .smaData 30 "slow_sma"⟩,
              ⟨"c1", .compareData .gt (some 1)⟩,
              ⟨"c2", .compareData .lt (some 2)⟩,
              ⟨"o", .orGate⟩,
              ⟨"b", .buySignal⟩],
    edges := [⟨"s1", "c1", none, some "left"⟩,
              ⟨"s2", "c2", none, some "left"⟩,
              ⟨"c1", "o", none, none⟩,
              ⟨"c2", "o", none, none⟩,
              ⟨"o", "b", none, none⟩] }

/-- C9: `serializeWorkflowToStrategy` emits at most one `TradingRule` per
buy/sell signal node, every emitted rule has at least one condition, and
conditions reaching a signal through an or-gate are flattened into that single
rule's conditions list (shown on `orGateGraph`: two compare conditions through
one or-gate give one rule with two conditions, not two rules). -/
theorem or_gate_flattening :
    (∀ (g : WorkflowGraph) (os ib : String),
      (serializeWorkflowToStrategy g os ib).buy_rules.length ≤
        (g.nodes.filter (fun n => n.data == .buySignal)).length ∧
      (serializeWorkflowToStrategy g os ib).sell_rules.length ≤
        (g.nodes.filter (fun n => n.data == .sellSignal)).length ∧
      (∀ r ∈ (serializeWorkflowToStrategy g os ib).buy_rules,
        r.conditions ≠ []) ∧
      (∀ r ∈ (serializeWorkflowToStrategy g os ib).sell_rules,
        r.conditions ≠ [])) ∧
    (serializeWorkflowToStrategy orGateGraph "100" "10000").buy_rules =
      [{ conditions :=
          [{ indicator := "fast_sma", operator := .gt, value := some 1 },
           { indicator := "slow_sma", operator := .lt, value := some 2 }] }] := by
  constructor
  · intro g os ib
    refine ⟨List.length_filterMap_le _ _, List.length_filterMap_le _ _, ?_, ?_⟩
    all_goals
      intro r hr
      simp only [serializeWorkflowToStrategy] at hr
      rw [List.mem_filterMap] at hr
      obtain ⟨node, _, hnode⟩ := hr
      rcases htr : traceRuleFromActionNode node g with _ | rule <;>
        rw [htr] at hnode
      · simp at hnode
      · change (if rule.conditions.length > 0 then some rule else none) =
          some r at hnode
        by_cases hlen : rule.conditions.length > 0
        · rw [if_pos hlen] at hnode
          cases hnode
          exact List.ne_nil_of_length_pos hlen
        · rw [if_neg hlen] at hnode
          simp at hnode
  · rfl

/-- Witness for `or_gate_flattening`: the single rule emitted for
`orGateGraph` is non-empty. -/
theorem or_gate_flattening_witness :
    ({ conditions :=
        [{ indicator := "fast_sma", operator := .gt, value := some 1 },
         { indicator := "slow_sma", operator := .lt, value := some 2 }] } :
      TradingRule) ∈
        (serializeWorkflowToStrategy orGateGraph "100" "10000").buy_rules ∧
    ({ conditions :=
        [{ indicator := "fast_sma", operator := .gt, value := some 1 },
         { indicator := "slow_sma", operator := .lt, value := some 2 }] } :
      TradingRule).conditions ≠ [] := by
  have hmem : ({ conditions :=
      [{ indicator := "fast_sma", operator := .gt, value := some 1 },
       { indicator := "slow_sma", operator := .lt, value := some 2 }] } :
      TradingRule) ∈
        (serializeWorkflowToStrategy orGateGraph "100" "10000").buy_rules := by
    rw [or_gate_flattening.2]
    exact List.mem_singleton.2 rfl
  exact ⟨hmem, (or_gate_flattening.1 orGateGraph "100" "10000").2.2.1 _ hmem⟩

theorem callsSpec_length (l : List MarketTrade) :
    ∀ hist, (callsSpec hist l).length = l.length := by
  induction l with
  | nil => intro hist; rfl
  | cons t rest ih => intro hist; simp [callsSpec, ih]

theorem callsSpec_getElem (l : List MarketTrade) :
    ∀ (hist : List MarketTrade) (i : ℕ),
      (callsSpec hist l)[i]? =
        (l[i]?).map (fun t => (t, hist ++ l.take (i + 1))) := by
  induction l with
  | nil => intro hist i; simp [callsSpec]
  | cons t rest ih =>
    intro hist i
    cases i with
    | zero => simp [callsSpec]
    | succ j =>
      simp only [callsSpec, List.getElem?_cons_succ, ih, List.take_succ_cons]
      cases rest[j]? <;> simp

theorem runLoop_calls {σ : Type} (strat : StrategyFn σ) (feeRate : ℚ) :
    ∀ (pending hist : List MarketTrade) (tr : RunTrace σ),
      (runLoop strat feeRate pending hist tr).calls =
        tr.calls ++ callsSpec hist pending := by
  intro pending
  induction pending with
  | nil => intro hist tr; simp [runLoop, callsSpec]
  | cons t rest ih =>
    intro hist tr
    rw [runLoop, callsSpec, ih]
    simp

/-- C1: in the simulation loop every strategy call at tick `i` receives as
history exactly the first `i + 1` trades of the (timestamp-sorted) sequence:
the history has length `i + 1`, ends in the current trade, and contains no
element beyond index `i`.  The loop is modelled from the spec because
`backtester.py` itself is not part of the repository snapshot. -/
theorem causality_invariant {σ : Type} :
    ∀ (strat : StrategyFn σ) (feeRate : ℚ) (s0 : σ) (bal : ℚ)
      (trades : List MarketTrade) (i : ℕ),
      (backtesterRun strat feeRate s0 bal trades).calls.length =
        trades.length ∧
      (i < trades.length →
        ∀ t h,
          (backtesterRun strat feeRate s0 bal trades).calls[i]? = some (t, h) →
          h.length = i + 1 ∧ h.getLast? = some t ∧
          h = (sortTrades trades).take (i + 1) ∧
          (sortTrades trades)[i]? = some t) := by
  intro strat feeRate s0 bal trades i
  have hcalls : (backtesterRun strat feeRate s0 bal trades).calls =
      callsSpec [] (sortTrades trades) := by
    rw [backtesterRun, runLoop_calls]
    rfl
  have hsortlen : (sortTrades trades).length = trades.length :=
    List.length_insertionSort _ trades
  constructor
  · rw [hcalls, callsSpec_length, hsortlen]
  · intro hi t h hsome
    rw [hcalls, callsSpec_getElem] at hsome
    have hil : i < (sortTrades trades).length := by rw [hsortlen]; exact hi
    rcases hget : (sortTrades trades)[i]? with _ | t'
    · rw [hget] at hsome; simp at hsome
    · rw [hget] at hsome
      simp only [Option.map_some, Option.some.injEq, Prod.mk.injEq,
        List.nil_append] at hsome
      obtain ⟨rfl, rfl⟩ := hsome
      have htake : (sortTrades trades).take (i + 1) =
          (sortTrades trades).take i ++ [t] := by
        rw [List.take_succ, hget]
        rfl
      refine ⟨?_, ?_, rfl, rfl⟩
      · simp [List.length_take]
        omega
      · rw [htake, List.getLast?_concat]

/-- Witness for `causality_invariant`: a two-trade run (given out of order, so
the loop sorts first) whose second call sees exactly both trades, ending in
the later one. -/
theorem causality_invariant_witness :
    (backtesterRun (fun _ _ (s : Unit) => (s, [])) 0 () 0
        [⟨2, 1⟩, ⟨1, 2⟩]).calls.length = 2 ∧
    (([⟨1, 2⟩, ⟨2, 1⟩] : List MarketTrade).length = 1 + 1 ∧
      ([⟨1, 2⟩, ⟨2, 1⟩] : List MarketTrade).getLast? = some ⟨2, 1⟩ ∧
      ([⟨1, 2⟩, ⟨2, 1⟩] : List MarketTrade) =
        (sortTrades [⟨2, 1⟩, ⟨1, 2⟩]).take (1 + 1) ∧
      (sortTrades [⟨2, 1⟩, ⟨1, 2⟩])[1]? = some ⟨2, 1⟩) :=
  ⟨(causality_invariant (fun _ _ (s : Unit) => (s, [])) 0 () 0
      [⟨2, 1⟩, ⟨1, 2⟩] 1).1,
   (causality_invariant (fun _ _ (s : Unit) => (s, [])) 0 () 0
      [⟨2, 1⟩, ⟨1, 2⟩] 1).2 (by norm_num) ⟨2, 1⟩ [⟨1, 2⟩, ⟨2, 1⟩] rfl⟩

/-- The spec's requirement on a `RuleCondition` (spec.md §3), stated from the
spec's words for comparison with what the serializer actually produces:
exactly one of `value` and `compare_to_indicator` is set. -/
def specExactlyOneSet (c : RuleCondition) : Prop :=
  (c.value.isSome ∧ c.compare_to_indicator = none) ∨
    (c.value = none ∧ c.compare_to_indicator.isSome)

theorem buildCompareCondition_not_both (g : WorkflowGraph)
    (node : WorkflowNode) (op : ConditionOperator) (val : Option ℚ) :
    ∀ c ∈ buildCompareCondition g node op val,
      ¬(c.value.isSome ∧ c.compare_to_indicator.isSome) := by
  intro c hc
  simp only [buildCompareCondition] at hc
  split at hc
  · simp at hc
  · split at hc
    · split at hc <;> (simp at hc; subst hc; simp)
    · split at hc <;> (simp at hc; subst hc; simp)

theorem buildCrossoverCondition_not_both (g : WorkflowGraph)
    (node : WorkflowNode) (op : ConditionOperator) :
    ∀ c ∈ buildCrossoverCondition g node op,
      ¬(c.value.isSome ∧ c.compare_to_indicator.isSome) := by
  intro c hc
  simp only [buildCrossoverCondition] at hc
  split at hc
  · simp at hc
    subst hc
    simp
  · simp at hc

theorem extractConditions_not_both (g : WorkflowGraph) :
    ∀ (fuel : ℕ) (node : WorkflowNode) (visited : List String),
      ∀ c ∈ (extractConditionsFromNode g fuel node visited).1,
        ¬(c.value.isSome ∧ c.compare_to_indicator.isSome) := by
  intro fuel
  induction fuel with
  | zero =>
    intro node visited c hc
    simp [extractConditionsFromNode] at hc
  | succ fuel ih =>
    intro node visited c hc
    rw [extractConditionsFromNode] at hc
    by_cases hv : node.id ∈ visited
    · rw [if_pos hv] at hc; simp at hc
    · rw [if_neg hv] at hc
      have aux : ∀ (es : List WorkflowEdge)
          (init : List RuleCondition × List String),
          (∀ c' ∈ init.1, ¬(c'.value.isSome ∧ c'.compare_to_indicator.isSome)) →
          ∀ c' ∈ (es.foldl
            (fun acc e =>
              match g.nodes.find? (fun n => n.id == e.source) with
              | some src =>
                let r := extractConditionsFromNode g fuel src acc.2
                (acc.1 ++ r.1, r.2)
              | none => acc)
            init).1,
            ¬(c'.value.isSome ∧ c'.compare_to_indicator.isSome) := by
        intro es
        induction es with
        | nil => intro init hinit c' hc'; exact hinit c' hc'
        | cons e rest ihe =>
          intro init hinit c' hc'
          rw [List.foldl_cons] at hc'
          refine ihe _ ?_ c' hc'
          intro c'' hc''
          rcases hf : g.nodes.find? (fun n => n.id == e.source) with _ | src <;>
            rw [hf] at hc''
          · exact hinit c'' hc''
          · simp only [List.mem_append] at hc''
            rcases hc'' with h | h
            · exact hinit c'' h
            · exact ih src _ c'' h
      match hnd : node.data with
      | .compareData op val =>
        rw [hnd] at hc
        exact buildCompareCondition_not_both g node op val c hc
      | .crossoverData op =>
        rw [hnd] at hc
        exact buildCrossoverCondition_not_both g node op c hc
      | .andGate =>
        rw [hnd] at hc
        exact aux _ _ (by simp) c hc
      | .orGate =>
        rw [hnd] at hc
        exact aux _ _ (by simp) c hc
      | .priceData => rw [hnd] at hc; simp at hc
      | .smaData p n => rw [hnd] at hc; simp at hc
      | .emaData p n => rw [hnd] at hc; simp at hc
      | .rsiData p n => rw [hnd] at hc; simp at hc
      | .macdData a b d n => rw [hnd] at hc; simp at hc
      | .bollingerData p q n => rw [hnd] at hc; simp at hc
      | .buySignal => rw [hnd] at hc; simp at hc
      | .sellSignal => rw [hnd] at hc; simp at hc

theorem traceRule_not_both (g : WorkflowGraph) (node : WorkflowNode) :
    ∀ rule, traceRuleFromActionNode node g = some rule →
      ∀ c ∈ rule.conditions,
        ¬(c.value.isSome ∧ c.compare_to_indicator.isSome) := by
  intro rule hrule c hc
  simp only [traceRuleFromActionNode] at hrule
  split at hrule
  · exact absurd hrule (by simp)
  · have aux : ∀ (es : List WorkflowEdge) (init : List RuleCondition),
        (∀ c' ∈ init, ¬(c'.value.isSome ∧ c'.compare_to_indicator.isSome)) →
        ∀ c' ∈ es.foldl
          (fun acc e =>
            match g.nodes.find? (fun n => n.id == e.source) with
            | some sourceNode =>
              acc ++ (extractConditionsFromNode g (g.nodes.length + 1)
                sourceNode []).1
            | none => acc)
          init,
          ¬(c'.value.isSome ∧ c'.compare_to_indicator.isSome) := by
      intro es
      induction es with
      | nil => intro init hinit c' hc'; exact hinit c' hc'
      | cons e rest ihe =>
        intro init hinit c' hc'
        rw [List.foldl_cons] at hc'
        refine ihe _ ?_ c' hc'
        intro c'' hc''
        rcases hf : g.nodes.find? (fun n => n.id == e.source) with _ | src <;>
          rw [hf] at hc''
        · exact hinit c'' hc''
        · simp only [List.mem_append] at hc''
          rcases hc'' with h | h
          · exact hinit c'' h
          · exact extractConditions_not_both g _ src [] c'' h
    cases hrule
    exact aux (g.edges.filter (fun e => e.target == node.id)) [] (by simp) c hc

/-- A compare node whose left input is the price-data node but which has no
right input and no literal `compareToValue` (as `createDefaultNodeData` makes
it: `compareToValue: undefined`), wired into a buy signal. -/
def danglingCompareGraph : WorkflowGraph :=
  { nodes := [⟨"p", .priceData⟩,
              ⟨"c", .compareData .gt none⟩,
              ⟨"b", .buySignal⟩],
    edges := [⟨"p", "c", none, some "left"⟩, ⟨"c", "b", none, none⟩] }

/-- Counterexample to C3 as stated: on `danglingCompareGraph` the serializer
emits a `RuleCondition` with NEITHER `value` nor `compare_to_indicator` set,
so "exactly one of the two is set" fails. -/
theorem rule_condition_neither_set_counterexample :
    (serializeWorkflowToStrategy danglingCompareGraph "100" "10000").buy_rules =
      [{ conditions := [{ indicator := "price", operator := .gt,
                          value := none, compare_to_indicator := none }] }] ∧
    ¬ specExactlyOneSet { indicator := "price", operator := .gt,
                          value := none, compare_to_indicator := none } := by
  refine ⟨rfl, ?_⟩
  simp [specExactlyOneSet]

/-- C3 (amended): every `RuleCondition` produced by
`serializeWorkflowToStrategy` has AT MOST one of `value` /
`compare_to_indicator` set — never both; a compare node lacking both a
resolvable right input and a literal value yields a condition with neither. -/
theorem rule_condition_at_most_one_source :
    ∀ (g : WorkflowGraph) (os ib : String) (r : TradingRule),
      (r ∈ (serializeWorkflowToStrategy g os ib).buy_rules ∨
        r ∈ (serializeWorkflowToStrategy g os ib).sell_rules) →
      ∀ c ∈ r.conditions,
        ¬(c.value.isSome ∧ c.compare_to_indicator.isSome) := by
  intro g os ib r hr c hc
  have key : ∀ nodes : List WorkflowNode,
      r ∈ nodes.filterMap (fun node =>
        match traceRuleFromActionNode node g with
        | some rule => if rule.conditions.length > 0 then some rule else none
        | none => none) →
      ¬(c.value.isSome ∧ c.compare_to_indicator.isSome) := by
    intro nodes hmem
    rw [List.mem_filterMap] at hmem
    obtain ⟨node, _, hnode⟩ := hmem
    rcases htr : traceRuleFromActionNode node g with _ | rule <;>
      rw [htr] at hnode
    · simp at hnode
    · change (if rule.conditions.length > 0 then some rule else none) =
        some r at hnode
      by_cases hlen : rule.conditions.length > 0
      · rw [if_pos hlen] at hnode
        injection hnode with heq
        subst heq
        exact traceRule_not_both g node _ htr c hc
      · rw [if_neg hlen] at hnode
        simp at hnode
  rcases hr with h | h
  · exact key (g.nodes.filter (fun n => n.data == .buySignal)) h
  · exact key (g.nodes.filter (fun n => n.data == .sellSignal)) h

/-- Witness for `rule_condition_at_most_one_source`: the rule emitted for
`orGateGraph` satisfies the at-most-one invariant at its first condition. -/
theorem rule_condition_at_most_one_source_witness :
    ¬((some (1 : ℚ)).isSome ∧ (none : Option String).isSome) :=
  rule_condition_at_most_one_source orGateGraph "100" "10000"
    { conditions :=
        [{ indicator := "fast_sma", operator := .gt, value := some 1 },
         { indicator := "slow_sma", operator := .lt, value := some 2 }] }
    (Or.inl (by rw [or_gate_flattening.2]; exact List.mem_singleton.2 rfl))
    { indicator := "fast_sma", operator := .gt, value := some 1 }
    (by simp)

theorem duplicateNameErrors_eq_nil_iff :
    ∀ (names seen : List String),
      duplicateNameErrors names seen = [] ↔
        ((names.filter (fun s => s ≠ "")).Nodup ∧
          ∀ s ∈ names.filter (fun s => s ≠ ""), s ∉ seen) := by
  intro names
  induction names with
  | nil => intro seen; simp [duplicateNameErrors]
  | cons name rest ih =>
    intro seen
    by_cases hdup : name ≠ "" ∧ name ∈ seen
    · rw [duplicateNameErrors, if_pos hdup]
      simp only [List.cons_ne_nil, false_iff, not_and, not_forall]
      intro _
      refine ⟨name, ?_, not_not_intro hdup.2⟩
      simp [List.mem_filter, hdup.1]
    · rw [duplicateNameErrors, if_neg hdup]
      by_cases hne : name = ""
      · subst hne
        rw [if_neg (by simp)]
        rw [ih seen]
        simp
      · rw [if_pos hne, ih (name :: seen)]
        push_neg at hdup
        have hnotseen : name ∉ seen := hdup hne
        have hfc : (name :: rest).filter (fun s => s ≠ "") =
            name :: rest.filter (fun s => s ≠ "") := by
          simp [List.filter_cons, hne]
        rw [hfc]
        simp only [List.nodup_cons]
        constructor
        · rintro ⟨hnd, hall⟩
          have h1 : name ∉ rest.filter (fun s => s ≠ "") := by
            intro hmem
            exact absurd (List.mem_cons_self name seen) (hall name hmem)
          refine ⟨⟨h1, hnd⟩, ?_⟩
          intro s hs
          rcases List.mem_cons.mp hs with rfl | hs2
          · exact hnotseen
          · have h2 := hall s hs2
            simp only [List.mem_cons, not_or] at h2
            exact h2.2
        · rintro ⟨⟨h1, hnd⟩, hall⟩
          refine ⟨hnd, ?_⟩
          intro s hs
          simp only [List.mem_cons, not_or]
          exact ⟨fun heq => h1 (heq ▸ hs), hall s (List.mem_cons_of_mem _ hs)⟩

/-- The grid form's initial state in `BacktestForm.tsx` (`useState` defaults). -/
def defaultGridForm : GridFormData :=
  { grid_size := 5, grid_spacing := "0.02", order_size := "100",
    initial_balance := "10000", protection_threshold := some 1 }

/-- The momentum form's initial state in `BacktestForm.tsx`. -/
def defaultMomentumForm : MomentumFormData :=
  { lookback_window := 10, momentum_threshold := "0.005",
    order_size := "100", initial_balance := "10000" }

/-- A custom form whose two indicators share the name `"dup"`. -/
def dupNameForm : CustomFormData :=
  { indicators := [⟨.sma, "dup", some 10, none, none, none, none⟩,
                   ⟨.sma, "dup", some 20, none, none, none, none⟩],
    buy_rules := [{ conditions := [{ indicator := "dup", operator := .gt,
                                     value := some 0 }] }],
    sell_rules := [],
    order_size := "100", initial_balance := "10000" }

/-- Counterexample to C4 as stated: on the form path, duplicate indicator
names are NOT detected — `validateFormStrategy` reports no error on
`dupNameForm`, and the form-path `handleRunBacktest` submits the backtest
request (carrying both same-named indicators) without any validation. -/
theorem duplicate_names_form_counterexample :
    validateFormStrategy dupNameForm = [] ∧
    handleRunBacktestForm .eventBased "" "market1" 5 "0.001" "custom"
        defaultGridForm defaultMomentumForm dupNameForm =
      { clob_token_id := some "market1",
        strategy := .custom ⟨dupNameForm.indicators, dupNameForm.buy_rules,
          dupNameForm.sell_rules, "100", "10000"⟩,
        fee_rate := "0.001" } :=
  ⟨rfl, rfl⟩

/-- C4 (amended): duplicate indicator names are detected only on the
visual-editor path — whenever the indicator nodes' non-empty output names
repeat, `validateWorkflowGraph` reports an error and the visual-editor
`handleRunBacktest` returns without requesting a backtest; the form path
performs no duplicate-name validation (see
`duplicate_names_form_counterexample`). -/
theorem duplicate_names_visual_blocks :
    ∀ (nodes : List WorkflowNode) (edges : List WorkflowEdge) (os ib : String),
      ¬(((nodes.filter (fun n => n.data.isIndicator)).map
          (fun n => (n.data.outputName?).getD "")).filter
            (fun s => s ≠ "")).Nodup →
      validateWorkflowGraph nodes edges ≠ [] ∧
      visualEditorRunBacktest nodes edges os ib = none := by
  intro nodes edges os ib hdup
  have hne : validateWorkflowGraph nodes edges ≠ [] := by
    have hdupErr : duplicateNameErrors
        ((nodes.filter (fun n => n.data.isIndicator)).map
          (fun n => (n.data.outputName?).getD "")) [] ≠ [] := by
      rw [ne_eq, duplicateNameErrors_eq_nil_iff]
      intro ⟨hnd, _⟩
      exact hdup hnd
    intro h
    apply hdupErr
    simp only [validateWorkflowGraph, List.append_eq_nil] at h
    exact h.1.2
  refine ⟨hne, ?_⟩
  rw [visualEditorRunBacktest, if_neg hne]

/-- Witness for `duplicate_names_visual_blocks`: two SMA nodes both named
`"x"` make validation fail and block the visual-editor run. -/
theorem duplicate_names_visual_blocks_witness :
    validateWorkflowGraph
        [⟨"i1", .smaData 10 "x"⟩, ⟨"i2", .smaData 20 "x"⟩] [] ≠ [] ∧
    visualEditorRunBacktest
        [⟨"i1", .smaData 10 "x"⟩, ⟨"i2", .smaData 20 "x"⟩] [] "100" "10000" =
      none :=
  duplicate_names_visual_blocks
    [⟨"i1", .smaData 10 "x"⟩, ⟨"i2", .smaData 20 "x"⟩] [] "100" "10000"
    (by decide)

/-- Indicator configs whose node round trip is exact: every parameter the node
stores for this indicator type is present and nonzero, and parameters foreign
to the type are absent (otherwise the `config.period || 20`-style defaults of
`createIndicatorNode` substitute values). -/
def IndicatorConfig.roundTripExact (c : IndicatorConfig) : Prop :=
  match c.type with
  | .sma | .ema | .rsi =>
    (∃ p, c.period = some p ∧ p ≠ 0) ∧ c.fast_period = none ∧
      c.slow_period = none ∧ c.signal_period = none ∧ c.num_std = none
  | .macd =>
    c.period = none ∧ (∃ p, c.fast_period = some p ∧ p ≠ 0) ∧
      (∃ p, c.slow_period = some p ∧ p ≠ 0) ∧
      (∃ p, c.signal_period = some p ∧ p ≠ 0) ∧ c.num_std = none
  | .bollinger =>
    (∃ p, c.period = some p ∧ p ≠ 0) ∧ c.fast_period = none ∧
      c.slow_period = none ∧ c.signal_period = none ∧
      (∃ q, c.num_std = some q ∧ q ≠ 0)

theorem createIndicatorNode_isIndicator (c : IndicatorConfig) (i : ℕ) :
    (createIndicatorNode c i).data.isIndicator = true := by
  cases c with
  | mk t name per fp sp sgp ns =>
    cases t <;> rfl

theorem nodeToIndicatorConfig_createIndicatorNode (c : IndicatorConfig)
    (i : ℕ) :
    ∃ c', nodeToIndicatorConfig (createIndicatorNode c i) = some c' ∧
      c'.type = c.type ∧ c'.name = c.name := by
  cases c with
  | mk t name per fp sp sgp ns =>
    cases t <;> exact ⟨_, rfl, rfl, rfl⟩

theorem nodeToIndicatorConfig_roundTripExact (c : IndicatorConfig) (i : ℕ)
    (h : c.roundTripExact) :
    nodeToIndicatorConfig (createIndicatorNode c i) = some c := by
  cases c with
  | mk t name per fp sp sgp ns =>
    cases t
    case sma =>
      obtain ⟨⟨p, hp, hpne⟩, h2, h3, h4, h5⟩ := h
      subst hp h2 h3 h4 h5
      simp [createIndicatorNode, nodeToIndicatorConfig, orDefaultNat, hpne]
    case ema =>
      obtain ⟨⟨p, hp, hpne⟩, h2, h3, h4, h5⟩ := h
      subst hp h2 h3 h4 h5
      simp [createIndicatorNode, nodeToIndicatorConfig, orDefaultNat, hpne]
    case rsi =>
      obtain ⟨⟨p, hp, hpne⟩, h2, h3, h4, h5⟩ := h
      subst hp h2 h3 h4 h5
      simp [createIndicatorNode, nodeToIndicatorConfig, orDefaultNat, hpne]
    case macd =>
      obtain ⟨h1, ⟨a, ha, hane⟩, ⟨b, hb, hbne⟩, ⟨d, hd, hdne⟩, h5⟩ := h
      subst h1 ha hb hd h5
      simp [createIndicatorNode, nodeToIndicatorConfig, orDefaultNat, hane,
        hbne, hdne]
    case bollinger =>
      obtain ⟨⟨p, hp, hpne⟩, h2, h3, h4, ⟨q, hq, hqne⟩⟩ := h
      subst hp h2 h3 h4 hq
      simp [createIndicatorNode, nodeToIndicatorConfig, orDefaultNat,
        orDefaultRat, hpne, hqne]

theorem deserialize_no_signal_nodes (cfg : CustomStrategyParams) :
    (deserializeStrategyToWorkflow cfg).nodes.filter
        (fun n => n.data == .buySignal) = [] ∧
    (deserializeStrategyToWorkflow cfg).nodes.filter
        (fun n => n.data == .sellSignal) = [] := by
  constructor <;>
  · rw [List.filter_eq_nil_iff]
    intro n hn
    simp only [deserializeStrategyToWorkflow, List.mem_cons,
      List.mem_map] at hn
    rcases hn with rfl | ⟨p, _, rfl⟩
    · simp
    · rcases p.2 with ⟨t, name, per, fp, sp, sgp, ns⟩
      cases t <;> simp [createIndicatorNode]

theorem filterMap_createIndicatorNode (l : List IndicatorConfig)
    (h : ∀ c ∈ l, c.roundTripExact) :
    ∀ k, (l.enumFrom k).filterMap
      (fun p => nodeToIndicatorConfig (createIndicatorNode p.2 p.1)) = l := by
  induction l with
  | nil => intro k; rfl
  | cons c rest ih =>
    intro k
    have hc : nodeToIndicatorConfig (createIndicatorNode c k) = some c :=
      nodeToIndicatorConfig_roundTripExact c k
        (h c (List.mem_cons_self c rest))
    simp only [List.enumFrom, List.filterMap_cons, hc]
    rw [ih (fun c' hc' => h c' (List.mem_cons_of_mem _ hc')) (k + 1)]

theorem filterMap_createIndicatorNode_typeName (l : List IndicatorConfig) :
    ∀ k, ((l.enumFrom k).filterMap
      (fun p => nodeToIndicatorConfig (createIndicatorNode p.2 p.1))).map
        (fun c => (c.type, c.name)) = l.map (fun c => (c.type, c.name)) := by
  induction l with
  | nil => intro k; rfl
  | cons c rest ih =>
    intro k
    obtain ⟨c', hc', hty, hna⟩ := nodeToIndicatorConfig_createIndicatorNode c k
    simp only [List.enumFrom, List.filterMap_cons, hc', List.map_cons,
      hty, hna]
    rw [ih (k + 1)]

theorem serialize_deserialize_filter (cfg : CustomStrategyParams) :
    (deserializeStrategyToWorkflow cfg).nodes.filter
        (fun n => n.data.isIndicator) =
      (cfg.indicators.enumFrom 1).map
        (fun p => createIndicatorNode p.2 p.1) := by
  simp only [deserializeStrategyToWorkflow]
  rw [List.filter_cons_of_neg (by simp [WorkflowNodeData.isIndicator])]
  rw [List.filter_eq_self.2]
  intro n hn
  rw [List.mem_map] at hn
  obtain ⟨p, _, rfl⟩ := hn
  exact createIndicatorNode_isIndicator p.2 p.1

/-- An SMA indicator config with its period absent: its workflow node gets the
default period 20, so the round trip changes the config. -/
def missingPeriodConfig : CustomStrategyParams :=
  { indicators := [⟨.sma, "a", none, none, none, none, none⟩],
    buy_rules := [], sell_rules := [],
    order_size := "100", initial_balance := "10000" }

/-- Counterexample to C10 as stated: deserializing an SMA indicator whose
`period` is absent creates a node with the default period 20, so
re-serializing does NOT reproduce the same indicators list. -/
theorem strategy_round_trip_counterexample :
    (serializeWorkflowToStrategy
        (deserializeStrategyToWorkflow missingPeriodConfig)
        "100" "10000").indicators =
      [⟨.sma, "a", some 20, none, none, none, none⟩] ∧
    (serializeWorkflowToStrategy
        (deserializeStrategyToWorkflow missingPeriodConfig)
        "100" "10000").indicators ≠ missingPeriodConfig.indicators := by
  refine ⟨rfl, ?_⟩
  intro h
  have h2 : ([⟨.sma, "a", some 20, none, none, none, none⟩] :
      List IndicatorConfig) = [⟨.sma, "a", none, none, none, none, none⟩] := h
  simp at h2

/-- C10 (amended): `deserializeStrategyToWorkflow` returns an edgeless graph
with one price-data node plus one node per indicator, preserving each
indicator's type and name but substituting defaults (20/14/12/26/9/2) for
absent-or-zero numeric parameters; re-serializing therefore yields
always-empty buy and sell rules, reproduces every indicator's type and name,
and reproduces the indicators list exactly when every parameter its type uses
is present and nonzero and no foreign parameter is set. -/
theorem strategy_round_trip_lossy :
    ∀ (cfg : CustomStrategyParams) (os ib : String),
      (deserializeStrategyToWorkflow cfg).edges = [] ∧
      (deserializeStrategyToWorkflow cfg).nodes.length =
        cfg.indicators.length + 1 ∧
      (deserializeStrategyToWorkflow cfg).nodes.head? =
        some ⟨"node_0", .priceData⟩ ∧
      (serializeWorkflowToStrategy (deserializeStrategyToWorkflow cfg)
        os ib).buy_rules = [] ∧
      (serializeWorkflowToStrategy (deserializeStrategyToWorkflow cfg)
        os ib).sell_rules = [] ∧
      ((serializeWorkflowToStrategy (deserializeStrategyToWorkflow cfg)
        os ib).indicators).map (fun c => (c.type, c.name)) =
          cfg.indicators.map (fun c => (c.type, c.name)) ∧
      ((∀ c ∈ cfg.indicators, c.roundTripExact) →
        (serializeWorkflowToStrategy (deserializeStrategyToWorkflow cfg)
          os ib).indicators = cfg.indicators) := by
  intro cfg os ib
  have hinds : (serializeWorkflowToStrategy (deserializeStrategyToWorkflow cfg)
      os ib).indicators =
      (cfg.indicators.enumFrom 1).filterMap
        (fun p => nodeToIndicatorConfig (createIndicatorNode p.2 p.1)) := by
    show ((deserializeStrategyToWorkflow cfg).nodes.filter
        (fun n => n.data.isIndicator)).filterMap nodeToIndicatorConfig = _
    rw [serialize_deserialize_filter, List.filterMap_map]
    rfl
  refine ⟨rfl, ?_, rfl, ?_, ?_, ?_, ?_⟩
  · simp [deserializeStrategyToWorkflow, List.enumFrom_length]
  · show ((deserializeStrategyToWorkflow cfg).nodes.filter
        (fun n => n.data == .buySignal)).filterMap _ = []
    rw [(deserialize_no_signal_nodes cfg).1]
    rfl
  · show ((deserializeStrategyToWorkflow cfg).nodes.filter
        (fun n => n.data == .sellSignal)).filterMap _ = []
    rw [(deserialize_no_signal_nodes cfg).2]
    rfl
  · rw [hinds, filterMap_createIndicatorNode_typeName]
  · intro h
    rw [hinds, filterMap_createIndicatorNode cfg.indicators h 1]

/-- Witness for `strategy_round_trip_lossy`: a config with all parameters
present and nonzero round-trips exactly. -/
theorem strategy_round_trip_lossy_witness :
    (serializeWorkflowToStrategy
        (deserializeStrategyToWorkflow
          ⟨[⟨.sma, "a", some 10, none, none, none, none⟩], [], [],
            "100", "10000"⟩)
        "100" "10000").indicators =
      [⟨.sma, "a", some 10, none, none, none, none⟩] :=
  (strategy_round_trip_lossy
      ⟨[⟨.sma, "a", some 10, none, none, none, none⟩], [], [],
        "100", "10000"⟩
      "100" "10000").2.2.2.2.2.2
    (by
      intro c hc
      simp only [List.mem_singleton] at hc
      subst hc
      exact ⟨⟨10, rfl, by norm_num⟩, rfl, rfl, rfl, rfl⟩)
